import Mathlib

/-!
Verification development for the calorie-tracker application
(`calorie_tracker_app.py`).  The app is a single-file Streamlit program:
a reference ingredient table, three append-only session logs (food,
supplement, weight), per-entry nutrient computation, daily aggregation
against fixed macro targets, and weight / supplement summary views.

Numeric values are modelled as rationals (`ℚ`).  `pd.to_numeric(x,
errors="coerce")` yields NaN on non-numeric input, which we model as
`Option ℚ` with `none` standing for NaN.  Dates are modelled as `Nat`
ordinals (only equality and order on dates matter to the program).
Note that rational division is total in Lean (`q / 0 = 0`) while the
float division in the source yields a non-finite value; the guard
theorems below are about whether the submission is blocked, not about
the float value produced by an unguarded division.
-/

namespace CalorieTracker

/-- One row of the reference table `cleaned_food_data.csv` after the five
`pd.to_numeric(..., errors="coerce")` coercions (lines 69-73 of the
source).  `none` models a NaN resulting from a missing or non-numeric
cell. -/
structure IngredientRow where
  name : String
  protein_per_g : Option ℚ
  carbs_per_g : Option ℚ
  fats_per_g : Option ℚ
  calories : Option ℚ
  intake_g : Option ℚ
deriving Repr, DecidableEq

/-- One appended food-log entry (the dict built at lines 84-93). -/
structure FoodEntry where
  date : Nat
  ingredient : String
  qty : ℚ
  meal : String
  protein : ℚ
  carbs : ℚ
  fats : ℚ
  calories : ℚ
deriving Repr, DecidableEq

/-- The line-75 guard `pd.isnull([...]).any()`: true when any of the five
coerced values is NaN. -/
def rowInvalid (r : IngredientRow) : Bool :=
  r.protein_per_g.isNone || r.carbs_per_g.isNone || r.fats_per_g.isNone ||
    r.calories.isNone || r.intake_g.isNone

/-- The food-form submission handler (lines 67-93): coerce the row's
five values, stop with a warning if any is NaN (`st.stop()` before the
append), otherwise compute the derived macros (lines 79-82) and append
one entry to the food log. -/
def submitFood (log : List FoodEntry) (d : Nat) (r : IngredientRow)
    (intake : ℚ) (meal : String) : List FoodEntry :=
  match r.protein_per_g, r.carbs_per_g, r.fats_per_g, r.calories, r.intake_g with
  | some p, some c, some f, some cal, some port =>
      log ++ [{ date := d, ingredient := r.name, qty := intake, meal := meal,
                protein := p * intake, carbs := c * intake, fats := f * intake,
                calories := cal * (intake / port) }]
  | _, _, _, _, _ => log

/-- Per-day totals of the four numeric columns, as produced by
`daily_log.sum(numeric_only=True)` at line 101 (`Qty (g)` is also
numeric in the source frame but only the four macro fields are read
afterwards; we carry the four that the views consume). -/
structure Totals where
  calories : ℚ
  protein : ℚ
  carbs : ℚ
  fats : ℚ
deriving Repr, DecidableEq

/-- The daily aggregation of the Food Intake tab (lines 98-101): filter
the food log to entries whose `Date` equals the selected date, then sum
each numeric field over the filtered subset.  Summing an empty frame
gives 0.0 in pandas, matching `List.sum [] = 0`. -/
def aggregate (log : List FoodEntry) (d : Nat) : Totals :=
  let daily := log.filter fun e => e.date = d
  { calories := (daily.map FoodEntry.calories).sum,
    protein := (daily.map FoodEntry.protein).sum,
    carbs := (daily.map FoodEntry.carbs).sum,
    fats := (daily.map FoodEntry.fats).sum }

/-- The four tracked macros iterated over at line 109. -/
inductive Macro
  | Calories
  | Protein
  | Carbs
  | Fats
deriving Repr, DecidableEq

/-- The fixed `macro_targets` dict (lines 30-35). -/
def macroTarget : Macro → ℚ
  | .Calories => 2000
  | .Protein  => 150
  | .Carbs    => 200
  | .Fats     => 70

/-- Projection `daily[macro]` of the summed totals. -/
def totalOf (t : Totals) : Macro → ℚ
  | .Calories => t.calories
  | .Protein  => t.protein
  | .Carbs    => t.carbs
  | .Fats     => t.fats

/-- The exceeded-target alert condition at line 110:
`daily[macro] > macro_targets[macro]`. -/
def exceeded (t : Totals) (m : Macro) : Bool :=
  decide (macroTarget m < totalOf t m)

/-- One appended weight-log entry (lines 133-136). -/
structure WeightEntry where
  date : Nat
  weight : ℚ
deriving Repr, DecidableEq

/-- `weight_df.sort_values("Date")` at line 140: sort the weight log
ascending by date (stable sort on the date key). -/
def sortByDate (log : List WeightEntry) : List WeightEntry :=
  List.insertionSort (fun a b => a.date ≤ b.date) log

/-- The Weight Change Summary block (lines 145-148): initial weight
`iloc[0]`, latest weight `iloc[-1]`, and their signed difference. -/
structure WeightSummary where
  first : ℚ
  latest : ℚ
  delta : ℚ
deriving Repr, DecidableEq

/-- The Weight Progress view (lines 138-148): when the weight log is
empty the whole block is skipped (guard `if not weight_df.empty` at
line 139) and nothing is rendered; otherwise the summary is read off
the date-sorted history. -/
def weightView (log : List WeightEntry) : Option WeightSummary :=
  if log.isEmpty then none
  else
    match sortByDate log with
    | [] => none
    | e :: rest =>
        let latest := ((e :: rest).getLast (List.cons_ne_nil e rest)).weight
        some { first := e.weight, latest := latest, delta := latest - e.weight }

/-- One appended supplement-log entry (lines 160-165). -/
structure SupplementEntry where
  date : Nat
  supplement : String
  dose : String
  time : String
deriving Repr, DecidableEq

/-- The Supplement Frequency table at line 173:
`supp_df.groupby("Supplement").size()` — one row per distinct
supplement name, carrying the number of log entries with that name. -/
def freqTable (log : List SupplementEntry) : List (String × Nat) :=
  ((log.map SupplementEntry.supplement).dedup).map fun n =>
    (n, (log.filter fun e => e.supplement = n).length)

/-- The three per-session append-only collections held in
`st.session_state` (lines 22-27). -/
structure SessionState where
  food_log : List FoodEntry
  supplement_log : List SupplementEntry
  weight_log : List WeightEntry
deriving Repr, DecidableEq

/-- The user interactions that can touch session state: the three form
submissions, and any view re-render / date change (which only reads the
collections). -/
inductive Action
  | foodSubmit (d : Nat) (r : IngredientRow) (intake : ℚ) (meal : String)
  | weightSubmit (d : Nat) (w : ℚ)
  | supplementSubmit (d : Nat) (name dose time : String)
  | render

/-- State transition of one interaction.  Form submissions append (the
food form only after its validity guard passes); renders recompute the
views from the collections without mutating them. -/
def step (s : SessionState) : Action → SessionState
  | .foodSubmit d r intake meal =>
      { s with food_log := submitFood s.food_log d r intake meal }
  | .weightSubmit d w =>
      { s with weight_log := s.weight_log ++ [{ date := d, weight := w }] }
  | .supplementSubmit d name dose time =>
      { s with supplement_log :=
          s.supplement_log ++ [{ date := d, supplement := name, dose := dose, time := time }] }
  | .render => s

/-! ## Theorems -/

/-- C1: for every reference ingredient with numeric coefficients and every
quantity q > 0, the food-form submission appends an entry with
protein = protein_per_gram * q, carbs = carbs_per_gram * q,
fats = fats_per_gram * q, and
calories = calories_per_reference_portion * (q / reference_portion_grams). -/
theorem submitFood_computes (log : List FoodEntry) (d : Nat) (meal : String)
    (r : IngredientRow) (q p c f cal port : ℚ)
    (hp : r.protein_per_g = some p) (hc : r.carbs_per_g = some c)
    (hf : r.fats_per_g = some f) (hcal : r.calories = some cal)
    (hport : r.intake_g = some port) (_hq : 0 < q) :
    submitFood log d r q meal =
      log ++ [{ date := d, ingredient := r.name, qty := q, meal := meal,
                protein := p * q, carbs := c * q, fats := f * q,
                calories := cal * (q / port) }] := by
  unfold submitFood
  rw [hp, hc, hf, hcal, hport]

/-- The scenario ingredient of the spec: protein_per_gram = 0.2,
carbs_per_gram = 0, fats_per_gram = 0.05, 120 calories per 100 g
reference portion. -/
def rScenario : IngredientRow :=
  { name := "X", protein_per_g := some 0.2, carbs_per_g := some 0,
    fats_per_g := some 0.05, calories := some 120, intake_g := some 100 }

/-- C1 witness: logging 150 g of the scenario ingredient yields
protein = 30, carbs = 0, fats = 7.5, calories = 180. -/
theorem submitFood_computes_witness :
    (0 : ℚ) < 150 ∧
    submitFood [] 0 rScenario 150 "Lunch" =
      [{ date := 0, ingredient := "X", qty := 150, meal := "Lunch",
         protein := 30, carbs := 0, fats := 7.5, calories := 180 }] := by
  refine ⟨by norm_num, ?_⟩
  rw [submitFood_computes [] 0 "Lunch" rScenario 150 0.2 0 0.05 120 100
    rfl rfl rfl rfl rfl (by norm_num)]
  simp only [List.nil_append, List.cons.injEq, FoodEntry.mk.injEq, rScenario, and_true]
  norm_num

/-- A row whose reference portion is numeric but zero: every coefficient
passes the `pd.isnull` test at line 75. -/
def rZeroPortion : IngredientRow :=
  { name := "Z", protein_per_g := some 0.2, carbs_per_g := some 0,
    fats_per_g := some 0.05, calories := some 120, intake_g := some 0 }

/-- C2 counterexample: with reference_portion_grams = 0 and all
coefficients numeric, the line-75 guard does NOT fire (it only tests
for NaN), and the submission appends an entry instead of failing — the
calorie division at line 82 runs unguarded. -/
theorem zero_portion_not_blocked :
    rowInvalid rZeroPortion = false ∧
    submitFood [] 0 rZeroPortion 150 "Lunch" ≠ [] := by
  decide

/-- C2 amended: a zero reference portion is not rejected.  For every row
whose five coerced values are numeric with intake_g = 0, the validity
guard evaluates to false and the submission appends an entry whose
calorie field is the result of the unguarded division by zero (total
division in the rational model; a non-finite float in the source). -/
theorem zero_portion_appends (log : List FoodEntry) (d : Nat) (meal : String)
    (r : IngredientRow) (q p c f cal : ℚ)
    (hp : r.protein_per_g = some p) (hc : r.carbs_per_g = some c)
    (hf : r.fats_per_g = some f) (hcal : r.calories = some cal)
    (hport : r.intake_g = some 0) :
    rowInvalid r = false ∧
    submitFood log d r q meal =
      log ++ [{ date := d, ingredient := r.name, qty := q, meal := meal,
                protein := p * q, carbs := c * q, fats := f * q,
                calories := cal * (q / 0) }] := by
  constructor
  · simp [rowInvalid, hp, hc, hf, hcal, hport]
  · unfold submitFood
    rw [hp, hc, hf, hcal, hport]

/-- C2 amended witness: the concrete zero-portion row passes the guard
and its submission appends one entry. -/
theorem zero_portion_appends_witness :
    rowInvalid rZeroPortion = false ∧
    submitFood [] 0 rZeroPortion 150 "Lunch" =
      [{ date := 0, ingredient := "Z", qty := 150, meal := "Lunch",
         protein := 0.2 * 150, carbs := 0 * 150, fats := 0.05 * 150,
         calories := 120 * (150 / 0) }] :=
  zero_portion_appends [] 0 "Lunch" rZeroPortion 150 0.2 0 0.05 120
    rfl rfl rfl rfl rfl

/-- C3: when any of the five coerced values of the selected row is NaN
(missing or non-numeric), the submission is blocked before the append
and the food log is left exactly as it was: no partial entry. -/
theorem invalid_row_blocks (log : List FoodEntry) (d : Nat) (meal : String)
    (r : IngredientRow) (q : ℚ) (h : rowInvalid r = true) :
    submitFood log d r q meal = log := by
  unfold submitFood
  split
  · next p c f cal port hp hc hf hcal hport =>
      rw [rowInvalid, hp, hc, hf, hcal, hport] at h
      simp at h
  · rfl

/-- A row whose protein coefficient failed the numeric coercion. -/
def rBadProtein : IngredientRow :=
  { name := "B", protein_per_g := none, carbs_per_g := some 0,
    fats_per_g := some 0.05, calories := some 120, intake_g := some 100 }

/-- An arbitrary pre-existing food-log entry. -/
def ePrior : FoodEntry :=
  { date := 0, ingredient := "X", qty := 10, meal := "Snack",
    protein := 2, carbs := 0, fats := 1, calories := 12 }

/-- C3 witness: submitting a row with a NaN protein coefficient leaves a
one-entry food log unchanged. -/
theorem invalid_row_blocks_witness :
    rowInvalid rBadProtein = true ∧
    submitFood [ePrior] 0 rBadProtein 10 "Snack" = [ePrior] :=
  ⟨by decide, invalid_row_blocks [ePrior] 0 "Snack" rBadProtein 10 (by decide)⟩

/-- C4: the daily aggregation filters the log to entries whose date
equals the selected date and sums each numeric field over that subset;
when no entry matches, every total is zero (summing the empty subset,
not an error). -/
theorem aggregate_filters_and_sums (log : List FoodEntry) (d : Nat) :
    ((aggregate log d).calories
        = ((log.filter fun e => e.date = d).map FoodEntry.calories).sum ∧
      (aggregate log d).protein
        = ((log.filter fun e => e.date = d).map FoodEntry.protein).sum ∧
      (aggregate log d).carbs
        = ((log.filter fun e => e.date = d).map FoodEntry.carbs).sum ∧
      (aggregate log d).fats
        = ((log.filter fun e => e.date = d).map FoodEntry.fats).sum) ∧
    ((∀ e ∈ log, e.date ≠ d) → aggregate log d = ⟨0, 0, 0, 0⟩) := by
  refine ⟨⟨rfl, rfl, rfl, rfl⟩, fun h => ?_⟩
  have hnil : log.filter (fun e => e.date = d) = [] := by
    rw [List.filter_eq_nil_iff]
    intro e he
    simpa using h e he
  simp [aggregate, hnil]

/-- C4 witness: aggregating a one-entry log on a date matching no entry
returns all-zero totals. -/
theorem aggregate_filters_and_sums_witness :
    (∀ e ∈ [ePrior], e.date ≠ 5) ∧ aggregate [ePrior] 5 = ⟨0, 0, 0, 0⟩ :=
  ⟨by decide, (aggregate_filters_and_sums [ePrior] 5).2 (by decide)⟩

/-- C5: the exceeded-target alert fires exactly when the daily total of
a macro strictly exceeds its fixed target; a calorie total of 2200
against the target 2000 is flagged, a total of 1800 is not. -/
theorem exceeded_iff_gt (t : Totals) (m : Macro) :
    (exceeded t m = true ↔ totalOf t m > macroTarget m) ∧
    exceeded ⟨2200, 0, 0, 0⟩ .Calories = true ∧
    exceeded ⟨1800, 0, 0, 0⟩ .Calories = false := by
  refine ⟨?_, ?_, ?_⟩
  · simp [exceeded, gt_iff_lt]
  · simp [exceeded, totalOf, macroTarget]
    norm_num
  · simp [exceeded, totalOf, macroTarget]
    norm_num

/-- C10: the comparison at line 110 is strict: a daily total exactly
equal to its target is not flagged as exceeding it. -/
theorem equal_total_not_exceeded (t : Totals) (m : Macro)
    (h : totalOf t m = macroTarget m) : exceeded t m = false := by
  simp [exceeded, h]

/-- C10 witness: a calorie total of exactly 2000 against the target 2000
is not flagged. -/
theorem equal_total_not_exceeded_witness :
    totalOf ⟨2000, 0, 0, 0⟩ .Calories = macroTarget .Calories ∧
    exceeded ⟨2000, 0, 0, 0⟩ .Calories = false :=
  ⟨rfl, equal_total_not_exceeded ⟨2000, 0, 0, 0⟩ .Calories rfl⟩

instance : IsTotal WeightEntry (fun a b => a.date ≤ b.date) :=
  ⟨fun a b => Nat.le_total a.date b.date⟩

instance : IsTrans WeightEntry (fun a b => a.date ≤ b.date) :=
  ⟨fun _ _ _ hab hbc => Nat.le_trans hab hbc⟩

lemma sortByDate_sorted (log : List WeightEntry) :
    List.Sorted (fun a b : WeightEntry => a.date ≤ b.date) (sortByDate log) :=
  List.sorted_insertionSort _ log

lemma sortByDate_perm (log : List WeightEntry) : List.Perm (sortByDate log) log :=
  List.perm_insertionSort _ log

lemma sorted_le_getLast :
    ∀ (l : List WeightEntry) (hne : l ≠ []),
      List.Sorted (fun a b : WeightEntry => a.date ≤ b.date) l →
      ∀ b ∈ l, b.date ≤ (l.getLast hne).date := by
  intro l
  induction l with
  | nil => intro hne; exact absurd rfl hne
  | cons a t ih =>
    intro hne hs b hb
    cases t with
    | nil =>
      rw [List.mem_singleton] at hb
      subst hb
      exact le_refl _
    | cons c t' =>
      rw [List.getLast_cons (List.cons_ne_nil c t')]
      rcases List.mem_cons.mp hb with rfl | hb'
      · exact List.rel_of_sorted_cons hs _ (List.getLast_mem (List.cons_ne_nil c t'))
      · exact ih (List.cons_ne_nil c t') hs.of_cons b hb'

/-- C6: for every non-empty weight log, the rendered summary is taken
from the history sorted ascending by date: `first` is the weight of an
entry whose date is minimal, `latest` the weight of an entry whose date
is maximal, and `delta` is the signed difference latest − first. -/
theorem weightView_first_latest (log : List WeightEntry) (s : WeightSummary)
    (h : weightView log = some s) :
    (∃ a ∈ log, a.weight = s.first ∧ ∀ b ∈ log, a.date ≤ b.date) ∧
    (∃ a ∈ log, a.weight = s.latest ∧ ∀ b ∈ log, b.date ≤ a.date) ∧
    s.delta = s.latest - s.first := by
  unfold weightView at h
  by_cases hemp : log.isEmpty
  · rw [if_pos hemp] at h
    exact absurd h (by simp)
  rw [if_neg hemp] at h
  cases hsort : sortByDate log with
  | nil =>
    rw [hsort] at h
    exact absurd h (by simp)
  | cons e rest =>
    rw [hsort] at h
    have hs' := Option.some.inj h
    subst hs'
    have hsorted := sortByDate_sorted log
    rw [hsort] at hsorted
    have hperm := sortByDate_perm log
    rw [hsort] at hperm
    have hmin : ∀ b ∈ e :: rest, e.date ≤ b.date := by
      intro b hb
      rcases List.mem_cons.mp hb with rfl | hb'
      · exact le_refl _
      · exact List.rel_of_sorted_cons hsorted b hb'
    refine ⟨⟨e, hperm.mem_iff.mp (List.mem_cons_self e rest), rfl, ?_⟩,
      ⟨(e :: rest).getLast (List.cons_ne_nil e rest),
        hperm.mem_iff.mp (List.getLast_mem (List.cons_ne_nil e rest)), rfl, ?_⟩, rfl⟩
    · intro b hb
      exact hmin b (hperm.mem_iff.mpr hb)
    · intro b hb
      exact sorted_le_getLast (e :: rest) (List.cons_ne_nil e rest) hsorted b
        (hperm.mem_iff.mpr hb)

/-- The example weight history: three entries with ascending dates and
weights 70.0, 69.0, 68.5. -/
def wlogEx : List WeightEntry := [⟨1, 70⟩, ⟨2, 69⟩, ⟨3, 68.5⟩]

/-- C6 witness: on the example history the summary is
first = 70, latest = 68.5, delta = −1.5, with the promised extremal
properties. -/
theorem weightView_first_latest_witness :
    weightView wlogEx = some ⟨70, 68.5, -1.5⟩ ∧
    ((∃ a ∈ wlogEx, a.weight = (70 : ℚ) ∧ ∀ b ∈ wlogEx, a.date ≤ b.date) ∧
      (∃ a ∈ wlogEx, a.weight = (68.5 : ℚ) ∧ ∀ b ∈ wlogEx, b.date ≤ a.date) ∧
      (-1.5 : ℚ) = 68.5 - 70) := by
  have hEval : weightView wlogEx = some ⟨70, 68.5, -1.5⟩ := by
    show weightView wlogEx = _
    norm_num [weightView, wlogEx, sortByDate, List.insertionSort,
      List.orderedInsert, List.getLast, WeightSummary.mk.injEq]
  exact ⟨hEval, weightView_first_latest wlogEx ⟨70, 68.5, -1.5⟩ hEval⟩

/-- C7: when the weight log is empty the weight view renders nothing:
the guard skips the whole block, so the first/latest accesses are never
performed on an empty collection and no error is raised. -/
theorem weightView_empty : weightView ([] : List WeightEntry) = none := rfl

/-- The example supplement history: Creatine logged twice (Morning and
Evening) and Fish Oil once (Morning). -/
def suppLogEx : List SupplementEntry :=
  [{ date := 0, supplement := "Creatine", dose := "5g scoop", time := "Morning" },
   { date := 0, supplement := "Creatine", dose := "5g scoop", time := "Evening" },
   { date := 0, supplement := "Fish Oil", dose := "1 tablet", time := "Morning" }]

/-- C8: the frequency table maps each distinct supplement name occurring
in the log to the number of log entries bearing that name; on the
example history it is exactly Creatine ↦ 2, Fish Oil ↦ 1. -/
theorem freqTable_counts :
    (∀ (log : List SupplementEntry) (n : String),
        n ∈ log.map SupplementEntry.supplement →
        (n, (log.filter fun e => e.supplement = n).length) ∈ freqTable log) ∧
    freqTable suppLogEx = [("Creatine", 2), ("Fish Oil", 1)] := by
  constructor
  · intro log n hn
    exact List.mem_map_of_mem _ (List.mem_dedup.mpr hn)
  · decide

/-- C8 witness: "Creatine" occurs in the example log and the frequency
table therefore carries the pair ("Creatine", 2). -/
theorem freqTable_counts_witness :
    ("Creatine", 2) ∈ freqTable suppLogEx :=
  freqTable_counts.1 suppLogEx "Creatine" (by decide)

lemma step_food_log (s : SessionState) (a : Action) :
    (step s a).food_log = s.food_log ∨
      ∃ e, (step s a).food_log = s.food_log ++ [e] := by
  cases a with
  | foodSubmit d r intake meal =>
    show submitFood s.food_log d r intake meal = s.food_log ∨
      ∃ e, submitFood s.food_log d r intake meal = s.food_log ++ [e]
    unfold submitFood
    split
    · exact Or.inr ⟨_, rfl⟩
    · exact Or.inl rfl
  | weightSubmit d w => exact Or.inl rfl
  | supplementSubmit d name dose time => exact Or.inl rfl
  | render => exact Or.inl rfl

lemma step_supplement_log (s : SessionState) (a : Action) :
    (step s a).supplement_log = s.supplement_log ∨
      ∃ e, (step s a).supplement_log = s.supplement_log ++ [e] := by
  cases a with
  | foodSubmit d r intake meal => exact Or.inl rfl
  | weightSubmit d w => exact Or.inl rfl
  | supplementSubmit d name dose time => exact Or.inr ⟨_, rfl⟩
  | render => exact Or.inl rfl

lemma step_weight_log (s : SessionState) (a : Action) :
    (step s a).weight_log = s.weight_log ∨
      ∃ e, (step s a).weight_log = s.weight_log ++ [e] := by
  cases a with
  | foodSubmit d r intake meal => exact Or.inl rfl
  | weightSubmit d w => exact Or.inr ⟨_, rfl⟩
  | supplementSubmit d name dose time => exact Or.inl rfl
  | render => exact Or.inl rfl

lemma steps_extend (acts : List Action) :
    ∀ s : SessionState, ∃ r1 r2 r3,
      (List.foldl step s acts).food_log = s.food_log ++ r1 ∧
      (List.foldl step s acts).supplement_log = s.supplement_log ++ r2 ∧
      (List.foldl step s acts).weight_log = s.weight_log ++ r3 := by
  induction acts with
  | nil => exact fun s => ⟨[], [], [], by simp, by simp, by simp⟩
  | cons a acts ih =>
    intro s
    obtain ⟨r1, r2, r3, h1, h2, h3⟩ := ih (step s a)
    obtain ⟨d1, hf⟩ : ∃ d1, (step s a).food_log = s.food_log ++ d1 := by
      rcases step_food_log s a with h | ⟨e, h⟩
      · exact ⟨[], by simp [h]⟩
      · exact ⟨[e], h⟩
    obtain ⟨d2, hsup⟩ : ∃ d2, (step s a).supplement_log = s.supplement_log ++ d2 := by
      rcases step_supplement_log s a with h | ⟨e, h⟩
      · exact ⟨[], by simp [h]⟩
      · exact ⟨[e], h⟩
    obtain ⟨d3, hw⟩ : ∃ d3, (step s a).weight_log = s.weight_log ++ d3 := by
      rcases step_weight_log s a with h | ⟨e, h⟩
      · exact ⟨[], by simp [h]⟩
      · exact ⟨[e], h⟩
    refine ⟨d1 ++ r1, d2 ++ r2, d3 ++ r3, ?_, ?_, ?_⟩
    · rw [List.foldl_cons, h1, hf, List.append_assoc]
    · rw [List.foldl_cons, h2, hsup, List.append_assoc]
    · rw [List.foldl_cons, h3, hw, List.append_assoc]

/-- C9: each of the three session collections is append-only: every
single interaction leaves a collection unchanged or appends exactly one
entry at its end, and after any sequence of interactions each
collection still starts with all previously appended entries, unchanged
and in insertion order. -/
theorem logs_append_only (s : SessionState) (a : Action) (acts : List Action) :
    (((step s a).food_log = s.food_log ∨
        ∃ e, (step s a).food_log = s.food_log ++ [e]) ∧
      ((step s a).supplement_log = s.supplement_log ∨
        ∃ e, (step s a).supplement_log = s.supplement_log ++ [e]) ∧
      ((step s a).weight_log = s.weight_log ∨
        ∃ e, (step s a).weight_log = s.weight_log ++ [e])) ∧
    (∃ r1 r2 r3,
      (List.foldl step s acts).food_log = s.food_log ++ r1 ∧
      (List.foldl step s acts).supplement_log = s.supplement_log ++ r2 ∧
      (List.foldl step s acts).weight_log = s.weight_log ++ r3) :=
  ⟨⟨step_food_log s a, step_supplement_log s a, step_weight_log s a⟩,
    steps_extend acts s⟩

end CalorieTracker
